import Mathlib

/-!
Shallow embedding of the `lokilogger` Go package (`logger.go`): the zap
field data model, the field-value renderer `fieldsToMap`, the flattened-line
builder and Loki envelope construction in `sendLog`, the leveled entry
points, and the relevant pieces of Go standard-library behaviour they call
(`time.Duration.String`, `time.Time.String`, `fmt` verbs, `encoding/json`
string marshalling).
-/

namespace LokiLogger

/-- Enumeration mirroring `zapcore.FieldType` for the cases handled by
`fieldsToMap`, plus `unknownT` for any unrecognized kind value. -/
inductive FieldType where
  | stringT | int64T | int32T | int16T | int8T
  | uint64T | uint32T | uint16T | uint8T
  | float64T | float32T | boolT | durationT
  | timeT | timeFullT | errorT | stringerT
  | reflectT | arrayMarshalerT | objectMarshalerT | inlineMarshalerT
  | binaryT | byteStringT | complex128T | complex64T
  | uintptrT | namespaceT | skipT | unknownT
  deriving DecidableEq, Repr

/-- A timezone as carried by a Go `*time.Location`: a fixed offset in
seconds east of UTC plus an abbreviation name (sufficient for the zones the
renderer ever consults). -/
structure Zone where
  offset : Int
  name : String
  deriving DecidableEq, Repr

/-- A Go `time.Time` value as the renderer consumes it: wall-clock
nanoseconds since the Unix epoch together with its location. -/
structure GoTime where
  ns : Int
  zone : Zone
  deriving DecidableEq, Repr

/-- The dynamic payload stored in `zap.Field.Interface` (a Go `interface{}`
value). `nilI` is the nil interface; `valueI` carries an arbitrary Go value
represented by its `fmt` `%v` rendering. -/
inductive Iface where
  | nilI
  | locI (z : Zone)
  | timeI (t : GoTime)
  | errI (msg : String)
  | stringerI (s : String)
  | bytesI (bs : List Nat)
  | valueI (v : String)
  deriving DecidableEq, Repr

/-- Mirror of `zap.Field` / `zapcore.Field`: key, type tag, the 64-bit
`Integer` slot, the `String` slot and the `Interface` slot. -/
structure Field where
  key : String
  type : FieldType
  integer : Int
  string : String
  interface : Iface
  deriving DecidableEq, Repr

/-- Mirror of the repository's `LogEntry`: timestamp (nanoseconds since the
Unix epoch, as later consumed via `UnixNano`), message, ordered fields. -/
structure LogEntry where
  timestamp : Int
  message : String
  fields : List Field
  deriving DecidableEq, Repr

/-- Mirror of the repository's `Config` struct. -/
structure Config where
  baseURL : String
  environment : String
  service : String
  deriving DecidableEq, Repr

/-- Mirror of the repository's `Logger` struct: the remote base URL, the
service name kept for the stream label, the HTTP client timeout (seconds),
and the tags attached to the local zap sink by `New`. -/
structure Logger where
  baseURL : String
  service : String
  httpTimeoutSeconds : Nat
  localTags : List (String × String)
  deriving DecidableEq, Repr

/-- Mirror of `New`: stores the base URL and service name, sets a 10-second
HTTP timeout, and attaches `service` and `environment` tags to the local
zap sink via `logger.With`. -/
def New (c : Config) : Logger :=
  { baseURL := c.baseURL
    service := c.service
    httpTimeoutSeconds := 10
    localTags := [("service", c.service), ("environment", c.environment)] }

/-- The `zap.Skip()` constructor: a no-op field, type `SkipType`, all other
slots zero. -/
def zapSkip : Field :=
  { key := "", type := .skipT, integer := 0, string := "", interface := .nilI }

/-- The `zap.String key val` constructor. -/
def zapString (k v : String) : Field :=
  { key := k, type := .stringT, integer := 0, string := v, interface := .nilI }

/-- The `zap.Error err` constructor (via `zap.NamedError "error" err`): a
nil error yields `zap.Skip()`, otherwise an `ErrorType` field with key
`error` carrying the error value. -/
def zapErrorField (err : Option String) : Field :=
  match err with
  | none => zapSkip
  | some m =>
    { key := "error", type := .errorT, integer := 0, string := "", interface := .errI m }

/-- Interpret the low `w` bits of the stored `Integer` slot as a signed
`w`-bit integer, as the Go casts `int32(field.Integer)` etc. do. -/
def intCastSigned (w : Nat) (i : Int) : Int :=
  let m := i.emod (2 ^ w)
  if m < 2 ^ (w - 1) then m else m - 2 ^ w

/-- Interpret the low `w` bits of the stored `Integer` slot as an unsigned
`w`-bit integer, as `uint64(field.Integer)` etc. do. -/
def uintCast (w : Nat) (i : Int) : Nat :=
  (i.emod (2 ^ w)).toNat

/-- Join strings with a single space between consecutive elements. -/
def joinSpace : List String → String
  | [] => ""
  | [p] => p
  | p :: q :: rest => p ++ " " ++ joinSpace (q :: rest)

/-- Join strings with a comma between consecutive elements (JSON arrays and
objects). -/
def joinComma : List String → String
  | [] => ""
  | [p] => p
  | p :: q :: rest => p ++ "," ++ joinComma (q :: rest)

/-- Lowercase hexadecimal digit. -/
def hexDigitChar (n : Nat) : Char :=
  if n < 10 then Char.ofNat (48 + n) else Char.ofNat (97 + (n - 10))

/-- Go `fmt` `%x` applied to a `[]byte`: each byte as exactly two lowercase
hex digits, no separators. -/
def hexOfBytes (bs : List Nat) : String :=
  String.join (bs.map fun b =>
    String.singleton (hexDigitChar (b / 16 % 16)) ++ String.singleton (hexDigitChar (b % 16)))

/-- Decimal rendering of a natural number into the buffer tail, mirroring
Go `time`'s `fmtInt` (which emits the plain decimal digits). -/
def fmtInt (v : Nat) : String := toString v

/-- Loop of Go `time`'s `fmtFrac`: consume `prec` low decimal digits of `v`
from least significant outward, emitting a digit once a nonzero digit has
been seen; returns the emitted digits, the remaining value, and whether
anything was printed. -/
def fmtFracLoop : Nat → Nat → Bool → String → String × Nat × Bool
  | v, 0, pr, acc => (acc, v, pr)
  | v, prec + 1, pr, acc =>
    let digit := v % 10
    let pr' := pr || decide (digit ≠ 0)
    let acc' := if pr' then toString digit ++ acc else acc
    fmtFracLoop (v / 10) prec pr' acc'

/-- Go `time`'s `fmtFrac`: format the fraction `v / 10^prec` (with trailing
zeros and a zero fraction's decimal point omitted), returning the fraction
text and `v / 10^prec`. -/
def fmtFrac (v prec : Nat) : String × Nat :=
  let r := fmtFracLoop v prec false ""
  ((if r.2.2 then "." ++ r.1 else ""), r.2.1)

/-- Go `time.Duration.String`: sub-second durations use `ns`/`µs`/`ms`
units with a fraction; durations of at least one second always carry a
seconds component, prefixed by minutes and hours when those are nonzero. -/
def durationString (d : Int) : String :=
  let u := d.natAbs
  let body :=
    if u < 1000000000 then
      if u = 0 then "0s"
      else if u < 1000 then fmtInt u ++ "ns"
      else if u < 1000000 then
        let fv := fmtFrac u 3
        fmtInt fv.2 ++ fv.1 ++ "µs"
      else
        let fv := fmtFrac u 6
        fmtInt fv.2 ++ fv.1 ++ "ms"
    else
      let fv := fmtFrac u 9
      let s0 := fmtInt (fv.2 % 60) ++ fv.1 ++ "s"
      let mins := fv.2 / 60
      if 0 < mins then
        let s1 := fmtInt (mins % 60) ++ "m" ++ s0
        let hrs := mins / 60
        if 0 < hrs then fmtInt hrs ++ "h" ++ s1 else s1
      else s0
  if d < 0 then "-" ++ body else body

/-- Left-pad the decimal rendering of `n` with zeros to width `w`. -/
def padZeros (w n : Nat) : String :=
  let s := toString n
  String.mk (List.replicate (w - s.length) '0') ++ s

/-- Civil date (year, month, day) from days since 1970-01-01, proleptic
Gregorian — the date computation behind Go `time`'s `absDate`. -/
def civilFromDays (z : Int) : Int × Nat × Nat :=
  let z' := z + 719468
  let era := Int.fdiv z' 146097
  let doe := (z' - era * 146097).toNat
  let yoe := (doe - doe / 1460 + doe / 36524 - doe / 146096) / 365
  let y := (yoe : Int) + era * 400
  let doy := doe - (365 * yoe + yoe / 4 - yoe / 100)
  let mp := (5 * doy + 2) / 153
  let d := doy - (153 * mp + 2) / 5 + 1
  let m := if mp < 10 then mp + 3 else mp - 9
  ((if m ≤ 2 then y + 1 else y), m, d)

/-- Fractional-seconds suffix of Go `time.Time.String`: nine digits with
trailing zeros stripped, the dot omitted when the nanosecond part is 0. -/
def fracNanos (nsec : Nat) : String :=
  if nsec = 0 then ""
  else "." ++ String.mk (((padZeros 9 nsec).toList.reverse.dropWhile (fun c => c = '0')).reverse)

/-- The `-0700`-style zone offset of Go `time.Time.String`. -/
def offsetString (off : Int) : String :=
  let sign := if off < 0 then "-" else "+"
  let mins := off.natAbs / 60
  sign ++ padZeros 2 (mins / 60) ++ padZeros 2 (mins % 60)

/-- Year component of Go `time.Time.String` (format token `2006`). -/
def yearString (y : Int) : String :=
  if y < 0 then "-" ++ padZeros 4 y.natAbs else padZeros 4 y.toNat

/-- Go `time.Time.String` for a wall-clock time (no monotonic reading):
`2006-01-02 15:04:05.999999999 -0700 MST` in the time's own location. -/
def goTimeString (t : GoTime) : String :=
  let sec := Int.fdiv t.ns 1000000000
  let nsec := (Int.emod t.ns 1000000000).toNat
  let lsec := sec + t.zone.offset
  let days := Int.fdiv lsec 86400
  let sod := (Int.emod lsec 86400).toNat
  let ymd := civilFromDays days
  yearString ymd.1 ++ "-" ++ padZeros 2 ymd.2.1 ++ "-" ++ padZeros 2 ymd.2.2 ++ " " ++
    padZeros 2 (sod / 3600) ++ ":" ++ padZeros 2 (sod / 60 % 60) ++ ":" ++
    padZeros 2 (sod % 60) ++ fracNanos nsec ++ " " ++
    offsetString t.zone.offset ++ " " ++ t.zone.name

/-- Round `m * 2^e * 10` to the nearest integer, ties to even — the exact
rounding `strconv` performs when formatting a binary float with one decimal
digit. -/
def roundHalfEvenScaled (m : Nat) (e : Int) : Nat :=
  if 0 ≤ e then m * 10 * 2 ^ e.toNat
  else
    let den := 2 ^ (-e).toNat
    let num := m * 10
    let q := num / den
    let r := num % den
    if den < 2 * r then q + 1
    else if 2 * r < den then q
    else if q % 2 = 1 then q + 1 else q

/-- Go `fmt.Sprintf "%.1f"` of `math.Float64frombits bits`: exact decimal
rounding of the IEEE-754 double to one fractional digit; `±Inf` and `NaN`
render as `+Inf`, `-Inf`, `NaN`. -/
def float64Fixed1 (bits : Nat) : String :=
  let sign := bits / 2 ^ 63 % 2 = 1
  let e2 : Nat := bits / 2 ^ 52 % 2 ^ 11
  let mant := bits % 2 ^ 52
  if e2 = 2047 then
    if mant ≠ 0 then "NaN" else if sign then "-Inf" else "+Inf"
  else
    let m := if e2 = 0 then mant else mant + 2 ^ 52
    let e : Int := (if e2 = 0 then 1 else (e2 : Int)) - 1075
    let tenths := roundHalfEvenScaled m e
    (if sign then "-" else "") ++ toString (tenths / 10) ++ "." ++ toString (tenths % 10)

/-- Go `fmt.Sprintf "%.1f"` of `math.Float32frombits bits`. -/
def float32Fixed1 (bits : Nat) : String :=
  let sign := bits / 2 ^ 31 % 2 = 1
  let e2 : Nat := bits / 2 ^ 23 % 2 ^ 8
  let mant := bits % 2 ^ 23
  if e2 = 255 then
    if mant ≠ 0 then "NaN" else if sign then "-Inf" else "+Inf"
  else
    let m := if e2 = 0 then mant else mant + 2 ^ 23
    let e : Int := (if e2 = 0 then 1 else (e2 : Int)) - 150
    let tenths := roundHalfEvenScaled m e
    (if sign then "-" else "") ++ toString (tenths / 10) ++ "." ++ toString (tenths % 10)

/-- Go `fmt` `%v` applied to an `interface{}` payload: nil renders as
`<nil>`; errors and Stringers render through their textual methods; byte
slices as bracketed decimal lists; times and locations through their
`String`. -/
def goFmtV : Iface → String
  | .nilI => "<nil>"
  | .valueI v => v
  | .errI m => m
  | .stringerI s => s
  | .bytesI bs => "[" ++ joinSpace (bs.map toString) ++ "]"
  | .locI z => z.name
  | .timeI t => goTimeString t

/-- Result of rendering one field in `fieldsToMap`: a map entry, no entry
(the skip/namespace/unknown kinds), or a Go runtime panic from a failed
type assertion. -/
inductive RenderOut where
  | panicOut
  | skipOut
  | entry (k v : String)
  deriving DecidableEq, Repr

/-- One iteration of the `switch field.Type` in `fieldsToMap`, given the
process-local timezone (consulted by `time.Unix(0, ns).String()` when a
time field carries no location). -/
def fieldEntry (localZone : Zone) (f : Field) : RenderOut :=
  match f.type with
  | .stringT => .entry f.key f.string
  | .int64T => .entry f.key (toString f.integer)
  | .int32T => .entry f.key (toString (intCastSigned 32 f.integer))
  | .int16T => .entry f.key (toString (intCastSigned 16 f.integer))
  | .int8T => .entry f.key (toString (intCastSigned 8 f.integer))
  | .uint64T => .entry f.key (toString (uintCast 64 f.integer))
  | .uint32T => .entry f.key (toString (uintCast 32 f.integer))
  | .uint16T => .entry f.key (toString (uintCast 16 f.integer))
  | .uint8T => .entry f.key (toString (uintCast 8 f.integer))
  | .float64T => .entry f.key (float64Fixed1 (uintCast 64 f.integer))
  | .float32T => .entry f.key (float32Fixed1 (uintCast 32 f.integer))
  | .boolT => .entry f.key (if f.integer = 1 then "true" else "false")
  | .durationT => .entry f.key (durationString f.integer)
  | .timeT =>
    match f.interface with
    | .nilI => .entry f.key (goTimeString { ns := f.integer, zone := localZone })
    | .locI zn => .entry f.key (goTimeString { ns := f.integer, zone := zn })
    | _ => .panicOut
  | .timeFullT =>
    match f.interface with
    | .timeI t => .entry f.key (goTimeString t)
    | _ => .panicOut
  | .errorT =>
    match f.interface with
    | .errI m => .entry f.key m
    | _ => .panicOut
  | .stringerT =>
    match f.interface with
    | .stringerI s => .entry f.key s
    | .timeI t => .entry f.key (goTimeString t)
    | _ => .panicOut
  | .reflectT => .entry f.key (goFmtV f.interface)
  | .arrayMarshalerT => .entry f.key (goFmtV f.interface)
  | .objectMarshalerT => .entry f.key (goFmtV f.interface)
  | .inlineMarshalerT => .entry f.key (goFmtV f.interface)
  | .binaryT =>
    match f.interface with
    | .bytesI bs => .entry f.key (hexOfBytes bs)
    | _ => .panicOut
  | .byteStringT =>
    match f.interface with
    | .bytesI bs => .entry f.key (hexOfBytes bs)
    | _ => .panicOut
  | .complex128T =>
    match f.interface with
    | .valueI v => .entry f.key v
    | _ => .panicOut
  | .complex64T =>
    match f.interface with
    | .valueI v => .entry f.key v
    | _ => .panicOut
  | .uintptrT => .entry f.key (toString (uintCast 64 f.integer))
  | .namespaceT => .skipOut
  | .skipT => .skipOut
  | .unknownT => .skipOut

/-- Loop of `fieldsToMap`: fold the fields into an association list
(newest entry in front, so a repeated key is overwritten on lookup, as in a
Go map); `none` models a panic escaping the loop. -/
def fieldsToMapAux (localZone : Zone) (acc : List (String × String)) :
    List Field → Option (List (String × String))
  | [] => some acc
  | f :: rest =>
    match fieldEntry localZone f with
    | .panicOut => none
    | .skipOut => fieldsToMapAux localZone acc rest
    | .entry k v => fieldsToMapAux localZone ((k, v) :: acc) rest

/-- The repository's `fieldsToMap`. -/
def fieldsToMap (localZone : Zone) (fields : List Field) :
    Option (List (String × String)) :=
  fieldsToMapAux localZone [] fields

/-- Go map lookup with the string zero value for a missing key. -/
def lookupD (m : List (String × String)) (k : String) : String :=
  ((m.find? fun p => p.1 = k).map Prod.snd).getD ""

/-- The per-field value used in `sendLog`'s flattening loop:
`fieldsToMap([]zap.Field{field})[field.Key]` — the empty string for a
skipped field, `none` when rendering panics. -/
def lineValue (localZone : Zone) (f : Field) : Option String :=
  (fieldsToMap localZone [f]).map fun m => lookupD m f.key

/-- The flattening loop body of `sendLog`: at index `i > 0` write a space,
then the key, `=`, and the single-field map lookup. -/
def buildFields (localZone : Zone) : List Field → Nat → String → Option String
  | [], _, acc => some acc
  | f :: rest, i, acc =>
    match lineValue localZone f with
    | none => none
    | some v =>
      buildFields localZone rest (i + 1)
        (acc ++ (if 0 < i then " " else "") ++ f.key ++ "=" ++ v)

/-- The flattened line `sendLog` builds: the message alone when there are
no fields, otherwise the message, `" | "`, and the loop over the fields. -/
def formatLine (localZone : Zone) (msg : String) (fields : List Field) :
    Option String :=
  if 0 < fields.length then buildFields localZone fields 0 (msg ++ " | ")
  else some msg

/-- Declarative per-field parts `key=value` of the flattened line, in
order; `none` when some field's rendering panics. -/
def flatParts (localZone : Zone) : List Field → Option (List String)
  | [] => some []
  | f :: rest =>
    match lineValue localZone f, flatParts localZone rest with
    | some v, some ps => some ((f.key ++ "=" ++ v) :: ps)
    | _, _ => none

/-- One Loki stream of the wire payload. -/
structure LokiStream where
  stream : List (String × String)
  values : List (List String)
  deriving DecidableEq, Repr

/-- The `LokiPayload` wire structure. -/
structure LokiPayload where
  streams : List LokiStream
  deriving DecidableEq, Repr

/-- The payload literal built in `sendLog`: one stream labelled
`source = service`, one sample `(UnixNano as decimal, flattened line)`. -/
def buildPayload (service : String) (ts : Int) (line : String) : LokiPayload :=
  { streams := [{ stream := [("source", service)], values := [[toString ts, line]] }] }

/-- Escape one character as Go `encoding/json` does inside a string
literal (with its default HTML escaping). -/
def jsonEscapeChar (c : Char) : String :=
  if c = Char.ofNat 34 then "\\\""
  else if c = Char.ofNat 92 then "\\\\"
  else if c = Char.ofNat 10 then "\\n"
  else if c = Char.ofNat 13 then "\\r"
  else if c = Char.ofNat 9 then "\\t"
  else if c = Char.ofNat 60 then "\\u003c"
  else if c = Char.ofNat 62 then "\\u003e"
  else if c = Char.ofNat 38 then "\\u0026"
  else if c.toNat < 32 then
    "\\u00" ++ String.singleton (hexDigitChar (c.toNat / 16)) ++
      String.singleton (hexDigitChar (c.toNat % 16))
  else if c.toNat = 8232 then "\\u2028"
  else if c.toNat = 8233 then "\\u2029"
  else String.singleton c

/-- Go `encoding/json` escaping of a string body. -/
def jsonEscape (s : String) : String :=
  String.join (s.toList.map jsonEscapeChar)

/-- A JSON string literal as Go `encoding/json` writes it. -/
def marshalString (s : String) : String :=
  "\"" ++ jsonEscape s ++ "\""

/-- Insert a pair into a key-sorted list (Go `encoding/json` emits map
keys in sorted order). -/
def insertPair (p : String × String) : List (String × String) → List (String × String)
  | [] => [p]
  | q :: rest => if p.1 < q.1 then p :: q :: rest else q :: insertPair p rest

/-- Sort pairs by key, as Go `encoding/json` does for a map. -/
def sortPairs : List (String × String) → List (String × String)
  | [] => []
  | p :: rest => insertPair p (sortPairs rest)

/-- JSON marshalling of a `map[string]string`. -/
def marshalStringMap (m : List (String × String)) : String :=
  "\x7b" ++
    joinComma ((sortPairs m).map fun p => marshalString p.1 ++ ":" ++ marshalString p.2) ++
  "\x7d"

/-- JSON marshalling of the `[][]string` values list. -/
def marshalValues (vs : List (List String)) : String :=
  "[" ++ joinComma (vs.map fun row => "[" ++ joinComma (row.map marshalString) ++ "]") ++ "]"

/-- JSON marshalling of one stream, following the struct tags
`json:"stream"` and `json:"values"`. -/
def marshalStream (st : LokiStream) : String :=
  "\x7b\"stream\":" ++ marshalStringMap st.stream ++ ",\"values\":" ++ marshalValues st.values ++ "\x7d"

/-- JSON marshalling of the whole payload (`json:"streams"`). -/
def marshalPayload (p : LokiPayload) : String :=
  "\x7b\"streams\":[" ++ joinComma (p.streams.map marshalStream) ++ "]\x7d"

/-- The HTTP request `sendLog` issues, as `(url, body)`, when the
flattening does not panic. -/
def sendLogRemote (l : Logger) (localZone : Zone) (e : LogEntry) :
    Option (String × String) :=
  (formatLine localZone e.message e.fields).map fun line =>
    (l.baseURL ++ "/loki/api/v1/push", marshalPayload (buildPayload l.service e.timestamp line))

/-- Environment outcomes of the effectful calls `sendLog` makes:
`json.Marshal`, `http.NewRequest`, and `httpClient.Do` (an error or a
response status code). -/
structure Transport where
  marshalFails : Bool
  newRequestFails : Bool
  doResult : Except Unit Nat
  deriving Repr

/-- The value a leveled call returns: success or one of the four error
cases of `sendLog`. -/
inductive CallResult where
  | success
  | errMarshal
  | errRequest
  | errSend
  | errStatus (code : Nat)
  deriving DecidableEq, Repr

/-- Control flow of `sendLog` around its effectful calls: the local zap
write happens first and its outcome (`localSinkFails`) is never consulted;
then marshal, request construction, the HTTP round-trip, and the status
check against 204 and 200. `none` models a panic while flattening. -/
def sendLogCall (l : Logger) (localZone : Zone) (e : LogEntry)
    (localSinkFails : Bool) (t : Transport) : Option CallResult :=
  (formatLine localZone e.message e.fields).map fun _line =>
    if t.marshalFails then .errMarshal
    else if t.newRequestFails then .errRequest
    else
      match t.doResult with
      | .error _ => .errSend
      | .ok code => if code ≠ 204 ∧ code ≠ 200 then .errStatus code else .success

/-- The `Info` entry point's remote request (timestamp made explicit). -/
def infoRequest (l : Logger) (localZone : Zone) (ts : Int) (msg : String)
    (fields : List Field) : Option (String × String) :=
  sendLogRemote l localZone { timestamp := ts, message := msg, fields := fields }

/-- The `Debug` entry point's remote request. -/
def debugRequest (l : Logger) (localZone : Zone) (ts : Int) (msg : String)
    (fields : List Field) : Option (String × String) :=
  sendLogRemote l localZone { timestamp := ts, message := msg, fields := fields }

/-- The `Warn` entry point's remote request. -/
def warnRequest (l : Logger) (localZone : Zone) (ts : Int) (msg : String)
    (fields : List Field) : Option (String × String) :=
  sendLogRemote l localZone { timestamp := ts, message := msg, fields := fields }

/-- The field list `Error` ships: `append(fields, zap.Error(err))`. -/
def errorFields (err : Option String) (fields : List Field) : List Field :=
  fields ++ [zapErrorField err]

/-- The `Error` entry point's remote request. -/
def errorRequest (l : Logger) (localZone : Zone) (ts : Int) (msg : String)
    (err : Option String) (fields : List Field) : Option (String × String) :=
  sendLogRemote l localZone { timestamp := ts, message := msg, fields := errorFields err fields }

/-- The UTC zone, used as a concrete ambient local timezone. -/
def utcZone : Zone := { offset := 0, name := "UTC" }

/-- A one-hour-east zone, a second concrete ambient local timezone. -/
def cetZone : Zone := { offset := 3600, name := "CET" }

/-- A concrete logger for closed instantiations. -/
def demoLogger : Logger :=
  New { baseURL := "http://loki", environment := "dev", service := "svc" }

/-- Concatenation of parts each preceded by one space. -/
def spaceAll : List String -> String
  | [] => ""
  | p :: ps => " " ++ p ++ spaceAll ps

theorem joinSpace_cons (p : String) (ps : List String) :
    joinSpace (p :: ps) = p ++ spaceAll ps := by
  induction ps generalizing p with
  | nil => simp [joinSpace, spaceAll]
  | cons q rest ih =>
    simp only [joinSpace, spaceAll, ih, String.append_assoc]

theorem buildFields_shift (z : Zone) :
    forall (fs : List Field) (ps : List String) (acc : String) (i : Nat),
      flatParts z fs = some ps ->
      buildFields z fs (i + 1) acc = some (acc ++ spaceAll ps) := by
  intro fs
  induction fs with
  | nil =>
    intro ps acc i h
    simp only [flatParts, Option.some.injEq] at h
    subst h
    simp [buildFields, spaceAll]
  | cons f rest ih =>
    intro ps acc i h
    simp only [flatParts] at h
    cases hv : lineValue z f with
    | none => rw [hv] at h; simp at h
    | some v =>
      rw [hv] at h
      cases hr : flatParts z rest with
      | none => rw [hr] at h; simp at h
      | some qs =>
        rw [hr] at h
        simp only [Option.some.injEq] at h
        subst h
        simp only [buildFields, hv, Nat.zero_lt_succ, if_pos, spaceAll]
        rw [ih qs _ (i + 1) hr]
        simp [String.append_assoc]

theorem formatLine_flatParts (z : Zone) (msg : String) (fields : List Field)
    (ps : List String) (h : flatParts z fields = some ps) :
    formatLine z msg fields =
      some (if fields.isEmpty then msg else msg ++ " | " ++ joinSpace ps) := by
  cases fields with
  | nil =>
    simp only [flatParts, Option.some.injEq] at h
    subst h
    simp [formatLine]
  | cons f rest =>
    simp only [flatParts] at h
    cases hv : lineValue z f with
    | none => rw [hv] at h; simp at h
    | some v =>
      rw [hv] at h
      cases hr : flatParts z rest with
      | none => rw [hr] at h; simp at h
      | some qs =>
        rw [hr] at h
        simp only [Option.some.injEq] at h
        subst h
        simp only [formatLine, List.length_cons, Nat.zero_lt_succ, if_pos,
          List.isEmpty_cons, Bool.false_eq_true, if_neg, buildFields, hv,
          Nat.lt_irrefl, if_false, joinSpace_cons]
        rw [buildFields_shift z rest qs _ 0 hr]
        simp [String.append_assoc, String.append_empty]

theorem flatParts_append (z : Zone) :
    forall (xs ys : List Field) (ps qs : List String),
      flatParts z xs = some ps -> flatParts z ys = some qs ->
      flatParts z (xs ++ ys) = some (ps ++ qs) := by
  intro xs
  induction xs with
  | nil =>
    intro ys ps qs hx hy
    simp only [flatParts, Option.some.injEq] at hx
    subst hx
    simpa using hy
  | cons f rest ih =>
    intro ys ps qs hx hy
    simp only [flatParts] at hx
    cases hv : lineValue z f with
    | none => rw [hv] at hx; simp at hx
    | some v =>
      rw [hv] at hx
      cases hr : flatParts z rest with
      | none => rw [hr] at hx; simp at hx
      | some rs =>
        rw [hr] at hx
        simp only [Option.some.injEq] at hx
        subst hx
        simp only [List.cons_append, flatParts, hv, List.append_eq]
        rw [ih ys rs qs hr hy]

theorem fmtFracLoop_zero :
    forall (prec v : Nat) (acc : String), v % 10 ^ prec = 0 ->
      fmtFracLoop v prec false acc = (acc, v / 10 ^ prec, false) := by
  intro prec
  induction prec with
  | zero => intro v acc h; simp [fmtFracLoop]
  | succ p ih =>
    intro v acc h
    obtain ⟨k, hk⟩ : 10 ^ (p + 1) ∣ v := Nat.dvd_of_mod_eq_zero h
    have h10 : v = 10 * (10 ^ p * k) := by rw [hk]; ring
    have hd : v % 10 = 0 := by rw [h10]; exact Nat.mul_mod_right 10 _
    have hdiv : v / 10 = 10 ^ p * k := by
      rw [h10]; exact Nat.mul_div_cancel_left _ (by norm_num)
    have hmod : (v / 10) % 10 ^ p = 0 := by rw [hdiv]; exact Nat.mul_mod_right _ _
    simp only [fmtFracLoop, hd, decide_not, Bool.false_or]
    norm_num
    rw [ih (v / 10) acc hmod, hdiv, hk]
    have hp : 0 < 10 ^ p := Nat.pos_pow_of_pos p (by norm_num)
    have hp1 : 0 < 10 ^ (p + 1) := Nat.pos_pow_of_pos (p + 1) (by norm_num)
    rw [Nat.mul_div_cancel_left k hp, Nat.mul_div_cancel_left k hp1]

theorem fmtFrac_zero (v prec : Nat) (h : v % 10 ^ prec = 0) :
    fmtFrac v prec = ("", v / 10 ^ prec) := by
  simp [fmtFrac, fmtFracLoop_zero prec v "" h]

/-- C1: for every message and ordered field sequence (whose rendering does
not panic), the flattened line equals the message alone when the sequence
is empty, and otherwise the message, `" | "`, and the fields rendered as
`key=value` in original order, consecutive entries separated by exactly
one space, with no reordering and no deduplication of repeated keys. -/
theorem flattenedLine_spec (z : Zone) (msg : String) (fields : List Field)
    (ps : List String) (h : flatParts z fields = some ps) :
    formatLine z msg fields =
      some (if fields.isEmpty then msg else msg ++ " | " ++ joinSpace ps) :=
  formatLine_flatParts z msg fields ps h

/-- Witness for C1 at a concrete input with a repeated key: both `k=1` and
`k=2` appear, in order. -/
theorem flattenedLine_spec_witness :
    flatParts utcZone [zapString "k" "1", zapString "b" "2", zapString "k" "3"] =
        some ["k=1", "b=2", "k=3"] ∧
    formatLine utcZone "X" [zapString "k" "1", zapString "b" "2", zapString "k" "3"] =
      some (if ([zapString "k" "1", zapString "b" "2", zapString "k" "3"] : List Field).isEmpty
        then "X" else "X | " ++ joinSpace ["k=1", "b=2", "k=3"]) :=
  ⟨by decide, flattenedLine_spec utcZone "X" _ _ (by decide)⟩

/-- C2 (failing input): a `zap.Skip()` field does not contribute zero
characters to the flattened line — `sendLog` still writes its (empty) key,
the `=` sign, and the list-position separator, so
`format "X" [skip, k=v]` is `"X | = k=v"`, not the specified `"X | k=v"`. -/
theorem skip_field_emits_separator :
    formatLine utcZone "X" [zapSkip, zapString "k" "v"] = some "X | = k=v" ∧
    "X | = k=v" ≠ "X | k=v" := by decide

/-- C5 (counterexample): the renderer does crash on a null payload for the
error and stringer object kinds — `fieldsToMap` performs unchecked type
assertions `field.Interface.(error)` / `field.Interface.(fmt.Stringer)`,
which panic on a nil interface. -/
theorem nil_object_payload_panics :
    fieldEntry utcZone
        { key := "error", type := .errorT, integer := 0, string := "", interface := .nilI } =
      .panicOut ∧
    fieldEntry utcZone
        { key := "k", type := .stringerT, integer := 0, string := "", interface := .nilI } =
      .panicOut := by decide

/-- C5 (amended): for a null payload, the reflected and the
array/object/inline marshaler kinds render the safe fallback `"<nil>"`
(via `fmt` `%v`) and do not crash, while the error and stringer kinds
panic on the failed type assertion. -/
theorem nil_payload_fallback_amended (z : Zone) (f : Field)
    (h : f.interface = Iface.nilI) :
    ((f.type = FieldType.reflectT ∨ f.type = FieldType.arrayMarshalerT ∨
        f.type = FieldType.objectMarshalerT ∨ f.type = FieldType.inlineMarshalerT) →
      fieldEntry z f = RenderOut.entry f.key "<nil>") ∧
    ((f.type = FieldType.errorT ∨ f.type = FieldType.stringerT) →
      fieldEntry z f = RenderOut.panicOut) := by
  obtain ⟨k, ft, i, st, ifc⟩ := f
  simp only [] at h
  subst h
  constructor
  · rintro (h | h | h | h) <;> (simp only [] at h; subst h; rfl)
  · rintro (h | h) <;> (simp only [] at h; subst h; rfl)

/-- Witness for C5's amended theorem at a concrete reflected field with a
nil payload. -/
theorem nil_payload_fallback_amended_witness :
    (({ key := "k", type := .reflectT, integer := 0, string := "", interface := .nilI } :
        Field).interface = Iface.nilI) ∧
    (((({ key := "k", type := .reflectT, integer := 0, string := "", interface := .nilI } :
          Field).type = FieldType.reflectT ∨
        ({ key := "k", type := .reflectT, integer := 0, string := "", interface := .nilI } :
          Field).type = FieldType.arrayMarshalerT ∨
        ({ key := "k", type := .reflectT, integer := 0, string := "", interface := .nilI } :
          Field).type = FieldType.objectMarshalerT ∨
        ({ key := "k", type := .reflectT, integer := 0, string := "", interface := .nilI } :
          Field).type = FieldType.inlineMarshalerT) →
      fieldEntry utcZone
          { key := "k", type := .reflectT, integer := 0, string := "", interface := .nilI } =
        RenderOut.entry
          ({ key := "k", type := .reflectT, integer := 0, string := "", interface := .nilI } :
            Field).key "<nil>") ∧
      ((({ key := "k", type := .reflectT, integer := 0, string := "", interface := .nilI } :
          Field).type = FieldType.errorT ∨
        ({ key := "k", type := .reflectT, integer := 0, string := "", interface := .nilI } :
          Field).type = FieldType.stringerT) →
      fieldEntry utcZone
          { key := "k", type := .reflectT, integer := 0, string := "", interface := .nilI } =
        RenderOut.panicOut)) :=
  ⟨rfl, nil_payload_fallback_amended utcZone _ rfl⟩

/-- C8 (counterexample): rendering a time field that carries no location
consults the process-local timezone, so two ambient local zones give two
different outputs for the identical field. -/
theorem time_rendering_zone_dependent :
    fieldEntry utcZone
        { key := "t", type := .timeT, integer := 0, string := "", interface := .nilI } ≠
      fieldEntry cetZone
        { key := "t", type := .timeT, integer := 0, string := "", interface := .nilI } := by
  decide

/-- C8 (amended): rendering is a pure deterministic function of the
field's kind and payload for every field except a time-kind field with a
nil location payload, whose rendering additionally depends on the
process-local timezone. -/
theorem rendering_pure_modulo_local_zone (z1 z2 : Zone) (f : Field)
    (h : ¬(f.type = FieldType.timeT ∧ f.interface = Iface.nilI)) :
    fieldEntry z1 f = fieldEntry z2 f := by
  obtain ⟨k, ft, i, st, ifc⟩ := f
  cases ft
  case timeT =>
    cases ifc
    case nilI => exact absurd ⟨rfl, rfl⟩ h
    all_goals rfl
  all_goals rfl

/-- Witness for C8's amended theorem at a concrete string field. -/
theorem rendering_pure_modulo_local_zone_witness :
    ¬((zapString "k" "v").type = FieldType.timeT ∧
        (zapString "k" "v").interface = Iface.nilI) ∧
    fieldEntry utcZone (zapString "k" "v") = fieldEntry cetZone (zapString "k" "v") :=
  ⟨by decide, rendering_pure_modulo_local_zone utcZone cetZone _ (by decide)⟩

/-- C10: the log level appears nowhere in the remote payload — `Info`,
`Debug` and `Warn` issue identical requests for the same entry, and
`Error` issues exactly the `Info` request for the field sequence with
`zap.Error err` appended. -/
theorem level_not_in_remote (l : Logger) (z : Zone) (ts : Int) (msg : String)
    (fields : List Field) (err : Option String) :
    infoRequest l z ts msg fields = debugRequest l z ts msg fields ∧
    warnRequest l z ts msg fields = infoRequest l z ts msg fields ∧
    errorRequest l z ts msg err fields =
      infoRequest l z ts msg (fields ++ [zapErrorField err]) :=
  ⟨rfl, rfl, rfl⟩

theorem durationString_sec (n : Nat) (h1 : 1 ≤ n) (h2 : n < 60) :
    durationString ((n : Int) * 1000000000) = toString n ++ "s" := by
  have e1 : ((n : Int) * 1000000000) = ((n * 1000000000 : Nat) : Int) := by push_cast; ring
  have hu : ((n * 1000000000 : Nat) : Int).natAbs = n * 1000000000 := Int.natAbs_ofNat _
  have hge : ¬(n * 1000000000 < 1000000000) := by omega
  have hm0 : n * 1000000000 % 10 ^ 9 = 0 := by norm_num [Nat.mul_mod_left]
  have hf : fmtFrac (n * 1000000000) 9 = ("", n) := by
    rw [fmtFrac_zero (n * 1000000000) 9 hm0]
    norm_num
  have hneg : ¬(((n * 1000000000 : Nat) : Int) < 0) :=
    Int.not_lt.mpr (Int.natCast_nonneg _)
  rw [e1]
  simp only [durationString, hu, hge, if_false, hf, hneg, if_neg,
    Nat.mod_eq_of_lt h2, Nat.div_eq_of_lt h2, Nat.lt_irrefl, fmtInt]
  simp [String.append_empty]

theorem durationString_hm (h m : Nat) (hh : 1 ≤ h) (hm : m < 60) :
    durationString (((h : Int) * 3600 + (m : Int) * 60) * 1000000000) =
      toString h ++ "h" ++ toString m ++ "m" ++ "0s" := by
  have e1 : (((h : Int) * 3600 + (m : Int) * 60) * 1000000000) =
      (((h * 3600 + m * 60) * 1000000000 : Nat) : Int) := by push_cast; ring
  have habs : (((h * 3600 + m * 60) * 1000000000 : Nat) : Int).natAbs =
      (h * 3600 + m * 60) * 1000000000 := Int.natAbs_ofNat _
  have hge : ¬((h * 3600 + m * 60) * 1000000000 < 1000000000) := by omega
  have hm0 : (h * 3600 + m * 60) * 1000000000 % 10 ^ 9 = 0 := by
    norm_num [Nat.mul_mod_left]
  have hf : fmtFrac ((h * 3600 + m * 60) * 1000000000) 9 = ("", h * 3600 + m * 60) := by
    rw [fmtFrac_zero _ 9 hm0]
    norm_num
  have hneg : ¬((((h * 3600 + m * 60) * 1000000000 : Nat) : Int) < 0) :=
    Int.not_lt.mpr (Int.natCast_nonneg _)
  have e2 : (h * 3600 + m * 60) % 60 = 0 := by omega
  have e3 : (h * 3600 + m * 60) / 60 = h * 60 + m := by omega
  have e4 : 0 < h * 60 + m := by omega
  have e5 : (h * 60 + m) % 60 = m := by omega
  have e6 : (h * 60 + m) / 60 = h := by omega
  have e7 : 0 < h := hh
  rw [e1]
  simp only [durationString, habs]
  rw [if_neg hge, hf]
  dsimp only
  rw [e2, e3, e5, e6, if_pos e4, if_pos e7, if_neg hneg]
  have c1 : (fmtInt 0 ++ "" : String) ++ "s" = "0s" := rfl
  rw [c1]
  simp only [fmtInt, String.append_assoc]

/-- C7 (counterexample): ninety minutes — 5400000000000 nanoseconds —
renders as `1h30m0s`, which differs from the claimed smallest-unit-set
rendering `1h30m`. -/
theorem duration_90m_trailing_zero :
    durationString 5400000000000 = "1h30m0s" ∧ "1h30m0s" ≠ "1h30m" := by decide

/-- C7 (amended): duration rendering follows Go `time.Duration.String` —
whole seconds in `[1, 60)` render as `<s>s` (so 5 seconds is `5s`), but a
duration of at least one second always carries an explicit seconds
component, so whole-minute durations of an hour or more render as
`<h>h<m>m0s` (90 minutes is `1h30m0s`, not `1h30m`). -/
theorem duration_go_rendering (sv hv mv : Nat) :
    (1 ≤ sv → sv < 60 →
      durationString ((sv : Int) * 1000000000) = toString sv ++ "s") ∧
    (1 ≤ hv → mv < 60 →
      durationString (((hv : Int) * 3600 + (mv : Int) * 60) * 1000000000) =
        toString hv ++ "h" ++ toString mv ++ "m" ++ "0s") :=
  ⟨fun a b => durationString_sec sv a b, fun a b => durationString_hm hv mv a b⟩

/-- Witness for C7's amended theorem at 5 seconds and at 1 hour 30
minutes. -/
theorem duration_go_rendering_witness :
    durationString (((5 : Nat) : Int) * 1000000000) = toString (5 : Nat) ++ "s" ∧
    durationString ((((1 : Nat) : Int) * 3600 + ((30 : Nat) : Int) * 60) * 1000000000) =
      toString (1 : Nat) ++ "h" ++ toString (30 : Nat) ++ "m" ++ "0s" :=
  ⟨(duration_go_rendering 5 1 30).1 (by decide) (by decide),
   (duration_go_rendering 5 1 30).2 (by decide) (by decide)⟩

/-- C3: the payload built by `sendLog` has exactly one stream, its label
map is exactly `source = service`, its values list is exactly one sample
of the decimal `UnixNano` timestamp and the flattened line, and it
serializes to the Loki wire format exactly. -/
theorem payload_wire_format (service : String) (ts : Int) (line : String) :
    (buildPayload service ts line).streams.length = 1 ∧
    (buildPayload service ts line).streams.map LokiStream.stream = [[("source", service)]] ∧
    (buildPayload service ts line).streams.map LokiStream.values = [[[toString ts, line]]] ∧
    marshalPayload (buildPayload service ts line) =
      "\x7b\"streams\":[\x7b\"stream\":\x7b\"source\":" ++ marshalString service ++
        "\x7d,\"values\":[[" ++ marshalString (toString ts) ++ "," ++ marshalString line ++
        "]]\x7d]\x7d" := by
  refine ⟨rfl, rfl, rfl, ?_⟩
  simp only [marshalPayload, buildPayload, marshalStream, marshalStringMap, marshalValues,
    sortPairs, insertPair, joinComma, List.map_cons, List.map_nil]
  rw [show marshalString "source" = "\"source\"" from rfl]
  simp [← String.append_assoc]
  have m1 : forall x : String,
      x ++ "\x7d" ++ ",\"values\":" ++ "[[" = x ++ "\x7d,\"values\":[[" := fun x => by
    rw [String.append_assoc, String.append_assoc]
    rfl
  have m2 : forall x : String,
      x ++ "]" ++ "]" ++ "\x7d" ++ "]\x7d" = x ++ "]]\x7d]\x7d" := fun x => by
    rw [String.append_assoc, String.append_assoc, String.append_assoc]
    rfl
  rw [m1, m2]

/-- C4: a leveled call returns no error exactly when marshalling, request
construction and the HTTP round-trip all succeed and the response status
is 200 or 204; and the local-sink outcome never influences the returned
value. -/
theorem sendLog_error_iff (l : Logger) (z : Zone) (e : LogEntry)
    (ls : Bool) (t : Transport) :
    (sendLogCall l z e ls t = some CallResult.success ↔
      (∃ line, formatLine z e.message e.fields = some line) ∧
        t.marshalFails = false ∧ t.newRequestFails = false ∧
        ∃ c, t.doResult = Except.ok c ∧ (c = 200 ∨ c = 204)) ∧
    ∀ ls' : Bool, sendLogCall l z e ls t = sendLogCall l z e ls' t := by
  constructor
  · unfold sendLogCall
    cases hf : formatLine z e.message e.fields with
    | none => simp
    | some line =>
      obtain ⟨mf, rf, dr⟩ := t
      cases mf
      · cases rf
        · cases dr with
          | error u => simp
          | ok c =>
            simp only [Option.map_some', Option.some.injEq]
            by_cases hc : c ≠ 204 ∧ c ≠ 200
            · rw [if_pos hc]
              constructor
              · intro hcon
                exact CallResult.noConfusion hcon
              · rintro ⟨-, -, -, c', hc', hor⟩
                injection hc' with hcc
                exfalso
                omega
            · rw [if_neg hc]
              constructor
              · intro _
                exact ⟨⟨line, rfl⟩, by trivial, by trivial, c, rfl, by omega⟩
              · intro _
                rfl
        · simp
      · simp
  · intro ls'
    rfl

/-- C6 (counterexample): `Error` with a null error value appends
`zap.Error(nil)`, which is the skip marker `zap.Skip()` — a field that is
not of the error kind and has no `error` key. -/
theorem error_nil_appends_skip :
    errorFields none [] = [zapSkip] ∧
    zapSkip.type ≠ FieldType.errorT ∧ zapSkip.key ≠ "error" := by decide

/-- C6 (amended): `Error` always appends `zap.Error(err)` to the end of
the field sequence before shipping — an error-kind field with key `error`
when `err` is non-null, but the skip marker when `err` is null; in the
null case the call does not crash and still attempts delivery. -/
theorem error_appends_zapError (l : Logger) (z : Zone) (ts : Int) (msg : String)
    (err : Option String) (fields : List Field) :
    errorRequest l z ts msg err fields =
      infoRequest l z ts msg (fields ++ [zapErrorField err]) ∧
    zapErrorField none = zapSkip ∧
    (∀ m, zapErrorField (some m) =
      { key := "error", type := .errorT, integer := 0, string := "", interface := .errI m }) ∧
    (∀ ps, flatParts z fields = some ps →
      ∃ body, errorRequest l z ts msg none fields =
        some (l.baseURL ++ "/loki/api/v1/push", body)) := by
  refine ⟨rfl, rfl, fun m => rfl, fun ps h => ?_⟩
  have hskip : flatParts z [zapSkip] = some ["="] := rfl
  have happ := flatParts_append z fields [zapSkip] ps ["="] h hskip
  have hline := formatLine_flatParts z msg (fields ++ [zapSkip]) (ps ++ ["="]) happ
  refine ⟨marshalPayload (buildPayload l.service ts
      (if (fields ++ [zapSkip]).isEmpty then msg
       else msg ++ " | " ++ joinSpace (ps ++ ["="]))), ?_⟩
  simp only [errorRequest, errorFields, zapErrorField, sendLogRemote, hline, Option.map_some']

/-- Witness for C6's amended theorem: `Error` with a null error and no
fields still produces a request. -/
theorem error_appends_zapError_witness :
    flatParts utcZone [] = some [] ∧
    (∃ body, errorRequest demoLogger utcZone 0 "X" none [] =
      some (demoLogger.baseURL ++ "/loki/api/v1/push", body)) :=
  ⟨rfl, (error_appends_zapError demoLogger utcZone 0 "X" none []).2.2.2 [] rfl⟩

/-- A first concrete configuration for C9's witness. -/
def cfgA : Config := { baseURL := "http://loki", environment := "dev", service := "svc" }

/-- A second concrete configuration, differing from `cfgA` only in its
environment. -/
def cfgB : Config := { baseURL := "http://loki", environment := "prod", service := "svc" }

/-- C9: the configured environment is attached only to the local sink and
never reaches the remote payload — two loggers whose configurations agree
on everything except the environment issue byte-identical requests — while
the configured service name is exactly the stream's `source` label. -/
theorem environment_not_in_remote (c1 c2 : Config) (z : Zone) (ts : Int)
    (msg : String) (fields : List Field)
    (hb : c1.baseURL = c2.baseURL) (hs : c1.service = c2.service) :
    sendLogRemote (New c1) z { timestamp := ts, message := msg, fields := fields } =
      sendLogRemote (New c2) z { timestamp := ts, message := msg, fields := fields } ∧
    (New c1).localTags = [("service", c1.service), ("environment", c1.environment)] ∧
    ∀ line, (buildPayload (New c1).service ts line).streams.map LokiStream.stream =
      [[("source", c1.service)]] := by
  refine ⟨?_, rfl, fun line => rfl⟩
  simp [sendLogRemote, New, hb, hs]

/-- Witness for C9 at two concrete configurations differing only in the
environment tag. -/
theorem environment_not_in_remote_witness :
    cfgA.baseURL = cfgB.baseURL ∧
    sendLogRemote (New cfgA) utcZone { timestamp := 0, message := "X", fields := [] } =
      sendLogRemote (New cfgB) utcZone { timestamp := 0, message := "X", fields := [] } :=
  ⟨rfl, (environment_not_in_remote cfgA cfgB utcZone 0 "X" [] rfl rfl).1⟩

end LokiLogger
